import Mathlib

/-!
Shallow embedding of the core logic of the mobile-fingerprint-doorbell
application, together with proofs of its specified properties.

The embedding covers:
* the chunked template upload `importTemplate` (`src/services/api.ts`),
* the discovery validation pipeline (`src/services/discovery.ts`),
* next-enrollment-id selection, pairing-password validation and the
  copy-fingerprint id choice (`src/screens/SensorFormScreen.tsx`),
* the sensor registry (`src/services/storage.ts`).

JavaScript strings are modelled as lists of characters (chunking and
trimming act positionally on code units); JSON (de)serialisation and the
platform key-value store are treated as the opaque external collaborators
the design documents say they are.
-/

namespace Doorbell

/-- Fingerprint record as returned by the device `/list` endpoint
(`types.ts`): numeric id and a name. -/
structure Fingerprint where
  id : Int
  name : String
deriving DecidableEq

/-- A fingerprint template `{id, name, template}` (`exportTemplate` /
`importTemplate` payload); the base64 `template` string is modelled as its
character list. -/
structure FingerprintTemplate where
  id : Int
  name : String
  template : List Char
deriving DecidableEq

/-- The `CHUNK_SIZE` constant of `importTemplate` (`api.ts`, line 121). -/
def CHUNK_SIZE : Nat := 500

/-- The query parameters carried by one POST to `/template/chunk`
(`api.ts`, lines 135-145): fingerprint id, 0-based chunk index, total chunk
count, the chunk data, and (on the first chunk only) the template name. -/
structure ChunkRequest where
  id : Int
  chunk : Nat
  total : Nat
  data : List Char
  name : Option String
deriving DecidableEq

/-- Result of one `fetch`: either an HTTP response carrying a status code,
or a transport-level failure (the promise rejects: timeout, connection
refused, DNS failure). -/
inductive FetchResult where
  | response (status : Nat)
  | transportError
deriving DecidableEq

/-- `Response.ok` of the Fetch API: status in the 2xx range; a transport
failure never yields an ok response. -/
def FetchResult.ok : FetchResult → Bool
  | .response s => 200 ≤ s && s < 300
  | .transportError => false

/-- Outcome of `importTemplate`: success (the last chunk's response body),
an abort at chunk `idx` carrying the failed fetch result (the thrown
`Failed to import template chunk` error, or the propagated rejection), or
the `No chunks to send` error reached when the loop body never ran. -/
inductive ImportOutcome where
  | success
  | chunkFailed (idx : Nat) (r : FetchResult)
  | noChunks
deriving DecidableEq

/-- `totalChunks = Math.ceil(templateData.length / CHUNK_SIZE)`
(`api.ts`, line 123), as natural-number ceiling division. -/
def totalChunks (t : FingerprintTemplate) : Nat :=
  (t.template.length + CHUNK_SIZE - 1) / CHUNK_SIZE

/-- The chunk request built in iteration `i` of the loop (`api.ts`,
lines 132-145): `templateData.substring(i*CHUNK_SIZE, (i+1)*CHUNK_SIZE)`
with `name` set only when `i = 0`. -/
def mkChunkRequest (t : FingerprintTemplate) (total i : Nat) : ChunkRequest :=
  { id := t.id
    chunk := i
    total := total
    data := (t.template.drop (i * CHUNK_SIZE)).take CHUNK_SIZE
    name := if i = 0 then some t.name else none }

/-- The `for` loop of `importTemplate` (`api.ts`, lines 131-165), starting
at chunk index `i` with `remaining = total - i` iterations left (the fuel
makes the recursion structural; `importTemplate` supplies `remaining =
total`).  `net j` is the device's answer to the chunk-`j` request.  Returns
the requests actually sent, in order, paired with the outcome: a non-ok
fetch aborts immediately; iteration `total - 1` returns the final response;
falling off the loop yields the `No chunks to send` error. -/
def importLoop (net : Nat → FetchResult) (t : FingerprintTemplate)
    (total : Nat) : Nat → Nat → List ChunkRequest × ImportOutcome
  | _, 0 => ([], ImportOutcome.noChunks)
  | i, remaining + 1 =>
    let req := mkChunkRequest t total i
    if (net i).ok then
      if i = total - 1 then ([req], ImportOutcome.success)
      else
        let rest := importLoop net t total (i + 1) remaining
        (req :: rest.1, rest.2)
    else ([req], ImportOutcome.chunkFailed i (net i))

/-- `importTemplate` (`api.ts`, lines 115-168): compute `totalChunks` and
run the sequential chunk loop from index 0. -/
def importTemplate (net : Nat → FetchResult) (t : FingerprintTemplate) :
    List ChunkRequest × ImportOutcome :=
  importLoop net t (totalChunks t) 0 (totalChunks t)

/-- Reassembly, auxiliary form: if `n` is the ceiling of `l.length / 500`,
the 500-sized contiguous chunks of `l`, in index order, concatenate back to
`l`. -/
theorem join_chunks_aux (n : Nat) : ∀ l : List Char,
    (l.length + 499) / 500 = n →
    ((List.range n).map (fun i => (l.drop (i * 500)).take 500)).flatten = l := by
  induction n with
  | zero =>
    intro l hl
    have hlen : l.length = 0 := by omega
    rw [List.length_eq_zero.mp hlen]
    simp
  | succ m ih =>
    intro l hl
    have hlen : 0 < l.length := by omega
    rw [List.range_succ_eq_map, List.map_cons, List.flatten_cons, List.map_map]
    have hdrop : ((l.drop 500).length + 499) / 500 = m := by
      rw [List.length_drop]
      omega
    have hmap : (List.range m).map ((fun i => (l.drop (i * 500)).take 500) ∘ Nat.succ)
        = (List.range m).map (fun i => (((l.drop 500).drop (i * 500)).take 500)) := by
      refine List.map_congr_left ?_
      intro x _
      simp only [Function.comp_apply, List.drop_drop]
      congr 2
      omega
    rw [hmap, ih (l.drop 500) hdrop]
    simp

/-- Reassembly: chunking a list into `ceil (length / 500)` contiguous
500-sized pieces and concatenating them in index order is the identity. -/
theorem join_chunks (l : List Char) :
    ((List.range ((l.length + 499) / 500)).map
      (fun i => (l.drop (i * 500)).take 500)).flatten = l :=
  join_chunks_aux _ l rfl

/-- On an all-successful network, the loop starting at index `i` with
`remaining` iterations left sends exactly the requests for indices
`i, i+1, …, i+remaining-1` and succeeds (provided it is genuinely the tail
of a run: `i + remaining = total` and `remaining > 0`). -/
theorem importLoop_success (net : Nat → FetchResult) (t : FingerprintTemplate)
    (total : Nat) : ∀ remaining i, i + remaining = total → 0 < remaining →
    (∀ j, j < total → (net j).ok = true) →
    importLoop net t total i remaining =
      ((List.range remaining).map (fun j => mkChunkRequest t total (i + j)),
        ImportOutcome.success) := by
  intro remaining
  induction remaining with
  | zero => omega
  | succ m ih =>
    intro i htot _ hok
    rw [importLoop]
    rw [if_pos (hok i (by omega))]
    by_cases hlast : i = total - 1
    · have hm : m = 0 := by omega
      subst hm
      rw [if_pos hlast]
      rfl
    · rw [if_neg hlast]
      have hrec := ih (i + 1) (by omega) (by omega) hok
      rw [hrec]
      rw [List.range_succ_eq_map, List.map_cons, List.map_map]
      refine Prod.ext ?_ rfl
      simp only []
      congr 1
      refine List.map_congr_left ?_
      intro x _
      simp only [Function.comp_apply]
      congr 1
      omega

/-- `totalChunks` with the constants folded in. -/
theorem totalChunks_eq (t : FingerprintTemplate) :
    totalChunks t = (t.template.length + 499) / 500 := by
  unfold totalChunks CHUNK_SIZE
  omega

/-- On an all-successful network, the whole run sends the requests for
indices `0, …, totalChunks - 1` in order and succeeds. -/
theorem importTemplate_success_trace (net : Nat → FetchResult)
    (t : FingerprintTemplate) (hok : ∀ j, j < totalChunks t → (net j).ok = true)
    (hne : 0 < totalChunks t) :
    importTemplate net t
      = ((List.range (totalChunks t)).map (mkChunkRequest t (totalChunks t)),
          ImportOutcome.success) := by
  rw [importTemplate,
    importLoop_success net t (totalChunks t) (totalChunks t) 0 (by omega) hne hok]
  refine Prod.ext ?_ rfl
  simp only []
  refine List.map_congr_left ?_
  intro x _
  rw [Nat.zero_add]

/-- If the loop reaches index `i ≤ k` where chunk `k` is the first failing
request, it sends exactly the requests for indices `i, …, k` and aborts
with the chunk-`k` failure. -/
theorem importLoop_abort (net : Nat → FetchResult) (t : FingerprintTemplate)
    (total k : Nat) (hfail : (net k).ok = false)
    (hprev : ∀ j, j < k → (net j).ok = true) (hk : k < total) :
    ∀ remaining i, i + remaining = total → i ≤ k →
    importLoop net t total i remaining =
      ((List.range (k - i + 1)).map (fun j => mkChunkRequest t total (i + j)),
        ImportOutcome.chunkFailed k (net k)) := by
  intro remaining
  induction remaining with
  | zero => intro i h1 h2; omega
  | succ m ih =>
    intro i htot hik
    rw [importLoop]
    by_cases hike : i = k
    · subst hike
      rw [if_neg (by simp [hfail])]
      rw [Nat.sub_self]
      simp [List.range_succ]
    · have hok_i : (net i).ok = true := hprev i (by omega)
      rw [if_pos hok_i]
      rw [if_neg (show ¬ i = total - 1 by omega)]
      have hrec := ih (i + 1) (by omega) (by omega)
      rw [hrec]
      have hki : k - i + 1 = (k - (i + 1) + 1) + 1 := by omega
      refine Prod.ext ?_ rfl
      simp only []
      conv_rhs => rw [hki, List.range_succ_eq_map, List.map_cons, List.map_map]
      congr 1
      refine List.map_congr_left ?_
      intro x _
      simp only [Function.comp_apply]
      congr 1
      omega

/-- C1: with every chunk request answered successfully, `importTemplate`
sends exactly `ceil(L / CHUNK_SIZE)` chunk requests for a template of
length `L`; the `i`-th request (0-based) carries the contiguous substring
of the template starting at `i * CHUNK_SIZE`, of length at most
`CHUNK_SIZE`; and concatenating the chunk payloads in index order yields
the original template string exactly. -/
theorem importTemplate_chunking (net : Nat → FetchResult)
    (t : FingerprintTemplate)
    (hok : ∀ j, j < totalChunks t → (net j).ok = true) :
    (importTemplate net t).1.length
        = (t.template.length + CHUNK_SIZE - 1) / CHUNK_SIZE
    ∧ (∀ i (h : i < (importTemplate net t).1.length),
        ((importTemplate net t).1.get ⟨i, h⟩).data
            = (t.template.drop (i * CHUNK_SIZE)).take CHUNK_SIZE
          ∧ ((importTemplate net t).1.get ⟨i, h⟩).data.length ≤ CHUNK_SIZE)
    ∧ ((importTemplate net t).1.map ChunkRequest.data).flatten = t.template := by
  by_cases h0 : totalChunks t = 0
  · have hlen : t.template.length = 0 := by
      rw [totalChunks_eq] at h0
      omega
    have hnil : t.template = [] := List.length_eq_zero.mp hlen
    have hempty : importTemplate net t = ([], ImportOutcome.noChunks) := by
      rw [importTemplate, h0]
      rfl
    refine ⟨?_, ?_, ?_⟩
    · rw [hempty]
      unfold CHUNK_SIZE
      simp [hlen]
    · intro i h
      rw [hempty] at h
      simp at h
    · rw [hempty, hnil]
      rfl
  · have htr := importTemplate_success_trace net t hok (by omega)
    have htrace : (importTemplate net t).1
        = (List.range (totalChunks t)).map (mkChunkRequest t (totalChunks t)) := by
      rw [htr]
    refine ⟨?_, ?_, ?_⟩
    · rw [htrace, List.length_map, List.length_range, totalChunks]
    · intro i h
      have hi : i < totalChunks t := by
        rw [htrace, List.length_map, List.length_range] at h
        exact h
      constructor
      · simp [htrace, mkChunkRequest]
      · simp only [htrace, List.get_eq_getElem, List.getElem_map,
          List.getElem_range, mkChunkRequest]
        rw [List.length_take]
        exact Nat.min_le_left _ _
    · rw [htrace, List.map_map]
      have hfun : ChunkRequest.data ∘ mkChunkRequest t (totalChunks t)
          = fun i => (t.template.drop (i * 500)).take 500 := by
        funext i
        simp [mkChunkRequest, CHUNK_SIZE]
      rw [hfun, totalChunks_eq]
      exact join_chunks t.template

/-- C2: if chunk `k` is the first failing request (`k < totalChunks`),
`importTemplate` sends exactly the requests for chunk indices `0, …, k`
— in particular no request for chunk `k + 1` or later — and the overall
result is a failure carrying the chunk-`k` fetch error. -/
theorem importTemplate_abort (net : Nat → FetchResult)
    (t : FingerprintTemplate) (k : Nat)
    (hk : k < totalChunks t) (hfail : (net k).ok = false)
    (hprev : ∀ j, j < k → (net j).ok = true) :
    (importTemplate net t).1
        = (List.range (k + 1)).map (mkChunkRequest t (totalChunks t))
    ∧ (∀ r ∈ (importTemplate net t).1, r.chunk ≤ k)
    ∧ (importTemplate net t).2 = ImportOutcome.chunkFailed k (net k) := by
  have h := importLoop_abort net t (totalChunks t) k hfail hprev hk
    (totalChunks t) 0 (by omega) (by omega)
  have htrace : importTemplate net t
      = ((List.range (k + 1)).map (mkChunkRequest t (totalChunks t)),
          ImportOutcome.chunkFailed k (net k)) := by
    rw [importTemplate, h]
    refine Prod.ext ?_ rfl
    simp only [Nat.sub_zero]
    refine List.map_congr_left ?_
    intro x _
    rw [Nat.zero_add]
  refine ⟨by rw [htrace], ?_, by rw [htrace]⟩
  intro r hr
  rw [htrace] at hr
  simp only [List.mem_map, List.mem_range] at hr
  obtain ⟨j, hj, rfl⟩ := hr
  simpa [mkChunkRequest] using Nat.lt_succ_iff.mp hj

/-- C1 witness: with a 3-character template and an all-200 network, the
chunk payloads reassemble to the template. -/
theorem importTemplate_chunking_witness :
    ((importTemplate (fun _ => FetchResult.response 200)
        ⟨1, "A", ['a', 'b', 'c']⟩).1.map ChunkRequest.data).flatten
      = ['a', 'b', 'c'] :=
  (importTemplate_chunking (fun _ => FetchResult.response 200)
    ⟨1, "A", ['a', 'b', 'c']⟩ (by decide)).2.2

/-- C2 witness: a single-chunk template whose request is answered with
HTTP 500 yields the chunk-0 failure outcome. -/
theorem importTemplate_abort_witness :
    (importTemplate (fun _ => FetchResult.response 500) ⟨1, "A", ['a']⟩).2
      = ImportOutcome.chunkFailed 0 (FetchResult.response 500) :=
  (importTemplate_abort (fun _ => FetchResult.response 500) ⟨1, "A", ['a']⟩ 0
    (by decide) (by decide) (by decide)).2.2

/-- C3: an empty template yields zero chunk requests and the
`No chunks to send` error (the spec's `ValidationError: nothing to send`),
for every possible network behaviour — so the operation fails without any
request being issued, rather than silently succeeding. -/
theorem importTemplate_empty (net : Nat → FetchResult) (i : Int) (n : String) :
    importTemplate net ⟨i, n, []⟩ = ([], ImportOutcome.noChunks) := by
  have h0 : totalChunks ⟨i, n, []⟩ = 0 := by
    rw [totalChunks_eq]
    norm_num
  rw [importTemplate, h0, importLoop]

/-- On any network behaviour whatsoever, the requests sent by the loop are
those for a contiguous index range starting at `i`, nonempty as soon as one
iteration is possible. -/
theorem importLoop_prefix (net : Nat → FetchResult) (t : FingerprintTemplate)
    (total : Nat) : ∀ remaining i, i + remaining = total →
    ∃ m out, m ≤ remaining ∧ (0 < remaining → 0 < m) ∧
      importLoop net t total i remaining
        = ((List.range m).map (fun j => mkChunkRequest t total (i + j)), out) := by
  intro remaining
  induction remaining with
  | zero =>
    intro i _
    exact ⟨0, ImportOutcome.noChunks, le_rfl, by omega, rfl⟩
  | succ m' ih =>
    intro i htot
    rw [importLoop]
    by_cases hok : (net i).ok = true
    · rw [if_pos hok]
      by_cases hlast : i = total - 1
      · rw [if_pos hlast]
        refine ⟨1, ImportOutcome.success, by omega, by omega, ?_⟩
        simp [List.range_succ]
      · rw [if_neg hlast]
        obtain ⟨m, out, hm, _, htr⟩ := ih (i + 1) (by omega)
        refine ⟨m + 1, out, by omega, by omega, ?_⟩
        rw [htr]
        refine Prod.ext ?_ rfl
        simp only []
        rw [List.range_succ_eq_map, List.map_cons, List.map_map]
        congr 1
        refine List.map_congr_left ?_
        intro x _
        simp only [Function.comp_apply]
        congr 1
        omega
    · rw [if_neg hok]
      refine ⟨1, ImportOutcome.chunkFailed i (net i), by omega, by omega, ?_⟩
      simp [List.range_succ]

/-- C4: for a non-empty template, at least one chunk request is sent, and
the `j`-th request sent carries chunk index `j`, the target fingerprint id
and the total chunk count; the request for chunk 0 carries the template's
name while every later request omits it. -/
theorem importTemplate_chunk_params (net : Nat → FetchResult)
    (t : FingerprintTemplate) (h : t.template ≠ []) :
    (importTemplate net t).1 ≠ []
    ∧ ∀ j (hj : j < (importTemplate net t).1.length),
        ((importTemplate net t).1.get ⟨j, hj⟩).chunk = j
        ∧ ((importTemplate net t).1.get ⟨j, hj⟩).id = t.id
        ∧ ((importTemplate net t).1.get ⟨j, hj⟩).total = totalChunks t
        ∧ (j = 0 → ((importTemplate net t).1.get ⟨j, hj⟩).name = some t.name)
        ∧ (j ≠ 0 → ((importTemplate net t).1.get ⟨j, hj⟩).name = none) := by
  have hlen : 0 < t.template.length := List.length_pos.mpr h
  have htc : 0 < totalChunks t := by
    rw [totalChunks_eq]
    omega
  obtain ⟨m, out, _, hpos, htr⟩ :=
    importLoop_prefix net t (totalChunks t) (totalChunks t) 0 (by omega)
  have hm : 0 < m := hpos htc
  have htrace : (importTemplate net t).1
      = (List.range m).map (fun j => mkChunkRequest t (totalChunks t) (0 + j)) := by
    rw [importTemplate, htr]
  constructor
  · rw [htrace]
    simp only [ne_eq, List.map_eq_nil_iff, List.range_eq_nil]
    omega
  · intro j hj
    have hget : (importTemplate net t).1.get ⟨j, hj⟩
        = mkChunkRequest t (totalChunks t) j := by
      simp only [htrace, List.get_eq_getElem, List.getElem_map,
        List.getElem_range, Nat.zero_add]
    rw [hget, mkChunkRequest]
    refine ⟨rfl, rfl, rfl, ?_, ?_⟩
    · intro hj0
      simp [hj0]
    · intro hj0
      simp [hj0]

/-- C4 witness: a one-character template sends a first request even on a
network that always fails at transport level. -/
theorem importTemplate_chunk_params_witness :
    (importTemplate (fun _ => FetchResult.transportError) ⟨2, "B", ['a']⟩).1 ≠ [] :=
  (importTemplate_chunk_params (fun _ => FetchResult.transportError)
    ⟨2, "B", ['a']⟩ (by decide)).1

/-- A raw discovered network service (`electron.ts` / `discovery.ts`):
name, host, ip, port and the mDNS txt record. -/
structure DiscoveredDevice where
  name : String
  host : String
  ip : String
  port : Nat
  txt : List (String × String)
deriving DecidableEq

/-- `isFingerprintDoorbell` (`discovery.ts`, lines 28-46) applied to the
result of the probe `GET http://ip/fingerprint/status`: any HTTP status
other than 404 counts as a fingerprint doorbell; a transport failure
(timeout, abort, connection refused, DNS failure) is caught and yields
`false` — no error escapes to the caller. -/
def isFingerprintDoorbell (probe : FetchResult) : Bool :=
  match probe with
  | .response s => s != 404
  | .transportError => false

/-- `JS Map.set`: replace the value in place if the key is present,
otherwise append the new entry, preserving insertion order. -/
def mapSet (m : List (String × DiscoveredDevice)) (k : String)
    (v : DiscoveredDevice) : List (String × DiscoveredDevice) :=
  if m.any (fun p => p.1 == k) then
    m.map (fun p => if p.1 == k then (k, v) else p)
  else m ++ [(k, v)]

/-- `JS Map.has`. -/
def mapHas (m : List (String × DiscoveredDevice)) (k : String) : Bool :=
  m.any (fun p => p.1 == k)

/-- `JS Map.delete`. -/
def mapDelete (m : List (String × DiscoveredDevice)) (k : String) :
    List (String × DiscoveredDevice) :=
  m.filter (fun p => p.1 != k)

/-- A notification emitted to the subscribers of the validating discovery
service: the `deviceFoundCallback` or `deviceLostCallback` invocation. -/
inductive DiscoveryNotification where
  | deviceFound (d : DiscoveredDevice)
  | deviceLost (name : String)
deriving DecidableEq

/-- State owned by `createValidatingDiscovery` (`discovery.ts`,
lines 49-86): the `validatedDevices` map plus the trace of notifications
emitted so far. -/
structure DiscoveryState where
  validated : List (String × DiscoveredDevice)
  notifications : List DiscoveryNotification
deriving DecidableEq

/-- The raw-device-found handler (`discovery.ts`, lines 54-64): probe the
device's ip; on a validating result, record the device under its name and
emit a `device found` notification; otherwise leave the state untouched
(the failure is absorbed, nothing is emitted and no error is raised). -/
def onRawDeviceFound (st : DiscoveryState) (d : DiscoveredDevice)
    (probe : FetchResult) : DiscoveryState :=
  if isFingerprintDoorbell probe then
    { validated := mapSet st.validated d.name d
      notifications := st.notifications ++ [DiscoveryNotification.deviceFound d] }
  else st

/-- The raw-device-lost handler (`discovery.ts`, lines 66-72): only if the
name is present in the validated map, remove it and emit a `device lost`
notification. -/
def onRawDeviceLost (st : DiscoveryState) (name : String) : DiscoveryState :=
  if mapHas st.validated name then
    { validated := mapDelete st.validated name
      notifications := st.notifications ++ [DiscoveryNotification.deviceLost name] }
  else st

/-- After `mapSet m k v`, the entry `(k, v)` is present. -/
theorem mapSet_mem (m : List (String × DiscoveredDevice)) (k : String)
    (v : DiscoveredDevice) : (k, v) ∈ mapSet m k v := by
  rw [mapSet]
  by_cases h : m.any (fun p => p.1 == k) = true
  · rw [if_pos h]
    rw [List.any_eq_true] at h
    obtain ⟨p, hp, hpk⟩ := h
    refine List.mem_map.mpr ⟨p, hp, ?_⟩
    rw [if_pos hpk]
  · rw [if_neg h]
    exact List.mem_append_right m (List.mem_singleton.mpr rfl)

/-- After `mapSet m k v`, the key `k` tests as present. -/
theorem mapHas_mapSet (m : List (String × DiscoveredDevice)) (k : String)
    (v : DiscoveredDevice) : mapHas (mapSet m k v) k = true := by
  rw [mapHas, List.any_eq_true]
  exact ⟨(k, v), mapSet_mem m k v, by simp⟩

/-- C5: classification of a raw `found` event by the probe's result.
A probe answered with any HTTP status other than 404 (2xx, 401, 403, 405,
…) adds the device to the validated map under its name — with the full
device record stored — and emits exactly one `device found` notification;
a probe answered with 404, or failing at transport level, leaves the state
exactly as it was: nothing is added, nothing is emitted, and (the handler
being a total function into states) no error reaches the caller. -/
theorem found_event_classification (st : DiscoveryState)
    (d : DiscoveredDevice) (probe : FetchResult) :
    (∀ s : Nat, probe = FetchResult.response s → s ≠ 404 →
      mapHas (onRawDeviceFound st d probe).validated d.name = true
      ∧ (d.name, d) ∈ (onRawDeviceFound st d probe).validated
      ∧ (onRawDeviceFound st d probe).notifications
          = st.notifications ++ [DiscoveryNotification.deviceFound d])
    ∧ (probe = FetchResult.response 404 ∨ probe = FetchResult.transportError →
        onRawDeviceFound st d probe = st) := by
  constructor
  · intro s hs hs404
    subst hs
    have hvalid : isFingerprintDoorbell (FetchResult.response s) = true := by
      simp [isFingerprintDoorbell, hs404]
    rw [onRawDeviceFound, if_pos hvalid]
    exact ⟨mapHas_mapSet _ _ _, mapSet_mem _ _ _, rfl⟩
  · intro hbad
    have hinvalid : isFingerprintDoorbell probe = false := by
      rcases hbad with h | h <;> subst h <;> rfl
    rw [onRawDeviceFound, hinvalid]
    rfl

/-- C5 witness: a 401 probe adds the device, at the concrete state/device
below. -/
theorem found_event_classification_witness :
    mapHas (onRawDeviceFound ⟨[], []⟩ ⟨"bell", "bell.local", "10.0.0.7", 80, []⟩
        (FetchResult.response 401)).validated "bell" = true :=
  ((found_event_classification ⟨[], []⟩ ⟨"bell", "bell.local", "10.0.0.7", 80, []⟩
      (FetchResult.response 401)).1 401 rfl (by decide)).1

/-- C6: a raw `lost` event for a name present in the validated map removes
every entry under that name (the key no longer tests as present, every
entry under a different name survives unchanged, and nothing new appears)
and emits exactly one `device lost` notification; a `lost` event for a
name not present is a complete no-op: the state — validated map and
notifications alike — is unchanged. -/
theorem lost_event_classification (st : DiscoveryState) (name : String) :
    (mapHas st.validated name = true →
      mapHas (onRawDeviceLost st name).validated name = false
      ∧ (∀ p ∈ st.validated, p.1 ≠ name → p ∈ (onRawDeviceLost st name).validated)
      ∧ (∀ p ∈ (onRawDeviceLost st name).validated, p ∈ st.validated ∧ p.1 ≠ name)
      ∧ (onRawDeviceLost st name).notifications
          = st.notifications ++ [DiscoveryNotification.deviceLost name])
    ∧ (mapHas st.validated name = false → onRawDeviceLost st name = st) := by
  constructor
  · intro hpresent
    rw [onRawDeviceLost, if_pos hpresent]
    refine ⟨?_, ?_, ?_, rfl⟩
    · rw [mapHas, List.any_eq_false]
      intro p hp
      rw [mapDelete, List.mem_filter] at hp
      rcases hp with ⟨_, hne⟩
      simpa using hne
    · intro p hp hne
      simp only [mapDelete, List.mem_filter]
      exact ⟨hp, by simpa using hne⟩
    · intro p hp
      simp only [mapDelete, List.mem_filter] at hp
      rcases hp with ⟨hmem, hne⟩
      exact ⟨hmem, by simpa using hne⟩
  · intro habsent
    rw [onRawDeviceLost, habsent]
    rfl

/-- C6 witness: losing an unknown name on a one-device state changes
nothing. -/
theorem lost_event_classification_witness :
    onRawDeviceLost ⟨[("bell", ⟨"bell", "bell.local", "10.0.0.7", 80, []⟩)], []⟩
        "other"
      = ⟨[("bell", ⟨"bell", "bell.local", "10.0.0.7", 80, []⟩)], []⟩ :=
  (lost_event_classification
    ⟨[("bell", ⟨"bell", "bell.local", "10.0.0.7", 80, []⟩)], []⟩ "other").2
    (by decide)

/-- If `n` occurs in `used`, strictly fewer elements of `used` are `≥ n+1`
than are `≥ n` (the termination measure of the ascending id scan). -/
theorem filter_ge_succ_lt (used : List Int) (n : Int)
    (h : used.contains n = true) :
    (used.filter (fun x => n + 1 ≤ x)).length
      < (used.filter (fun x => n ≤ x)).length := by
  induction used with
  | nil => simp at h
  | cons a tl ih =>
    have hmono : (tl.filter (fun x => n + 1 ≤ x)).length
        ≤ (tl.filter (fun x => n ≤ x)).length := by
      refine List.Sublist.length_le (List.monotone_filter_right tl ?_)
      intro x hx
      simp only [decide_eq_true_eq] at hx ⊢
      omega
    rw [List.elem_iff, List.mem_cons] at h
    rcases h with h | h
    · subst h
      rw [List.filter_cons, List.filter_cons]
      rw [if_neg (by simp), if_pos (by simp)]
      simpa using Nat.lt_succ_of_le hmono
    · have hlt := ih (List.elem_iff.mpr h)
      rw [List.filter_cons, List.filter_cons]
      by_cases h1 : ((n + 1 ≤ a : Prop) : Bool) = true
      · have h0 : ((n ≤ a : Prop) : Bool) = true := by
          simp only [decide_eq_true_eq] at h1 ⊢
          omega
        rw [if_pos h1, if_pos h0]
        simpa using hlt
      · rw [if_neg h1]
        by_cases h0 : ((n ≤ a : Prop) : Bool) = true
        · rw [if_pos h0]
          simp only [List.length_cons]
          omega
        · rw [if_neg h0]
          exact hlt

/-- The `while (usedIds.has(nextId)) nextId++` scan of `getNextId`
(`SensorFormScreen.tsx`, lines 720-723) and of `handleCopyTo`
(lines 810-813): starting from `n`, return the first integer not contained
in `used`. -/
def nextFrom (used : List Int) (n : Int) : Int :=
  if h : used.contains n = true then nextFrom used (n + 1) else n
termination_by (used.filter (fun x => n ≤ x)).length
decreasing_by
  exact filter_ge_succ_lt used n h

/-- A list whose `contains` test fails does not contain the element. -/
theorem not_mem_of_contains_eq_false (u : List Int) (x : Int)
    (hux : u.contains x = false) : x ∉ u := by
  intro hmem
  have hcontains : u.contains x = true := List.elem_iff.mpr hmem
  rw [hux] at hcontains
  exact Bool.false_ne_true hcontains

/-- The scan returns the least integer `≥ n` that is not in `used`. -/
theorem nextFrom_spec_aux (used : List Int) (k : Nat) :
    ∀ n : Int, (used.filter (fun x => n ≤ x)).length ≤ k →
    n ≤ nextFrom used n ∧ nextFrom used n ∉ used
      ∧ ∀ m : Int, n ≤ m → m ∉ used → nextFrom used n ≤ m := by
  induction k with
  | zero =>
    intro n hn
    have hnotin : used.contains n = false := by
      by_contra hc
      rw [Bool.not_eq_false] at hc
      have := filter_ge_succ_lt used n hc
      omega
    rw [nextFrom, dif_neg (by rw [hnotin]; exact Bool.false_ne_true)]
    exact ⟨le_rfl, not_mem_of_contains_eq_false used n hnotin, fun m hm _ => hm⟩
  | succ k ih =>
    intro n hn
    by_cases hc : used.contains n = true
    · have hmeasure := filter_ge_succ_lt used n hc
      have hrec := ih (n + 1) (by omega)
      rw [nextFrom, dif_pos hc]
      obtain ⟨hle, hnotin, hleast⟩ := hrec
      refine ⟨by omega, hnotin, ?_⟩
      intro m hm hmnot
      have hmn : m ≠ n := by
        intro he
        subst he
        exact hmnot (List.elem_iff.mp hc)
      exact hleast m (by omega) hmnot
    · rw [nextFrom, dif_neg hc]
      rw [Bool.not_eq_true] at hc
      exact ⟨le_rfl, not_mem_of_contains_eq_false used n hc, fun m hm _ => hm⟩

/-- The scan returns the least integer `≥ n` outside `used`. -/
theorem nextFrom_spec (used : List Int) (n : Int) :
    n ≤ nextFrom used n ∧ nextFrom used n ∉ used
      ∧ ∀ m : Int, n ≤ m → m ∉ used → nextFrom used n ≤ m :=
  nextFrom_spec_aux used (used.filter (fun x => n ≤ x)).length n le_rfl

/-- `getNextId` (`SensorFormScreen.tsx`, lines 717-725): 1 when the list is
empty, otherwise the ascending scan from 1 over the set of used ids. -/
def getNextId (fingerprints : List Fingerprint) : Int :=
  if fingerprints.length = 0 then 1
  else nextFrom (fingerprints.map Fingerprint.id) 1

/-- C7: the id chosen for the next enrollment is the lowest integer `≥ 1`
not present among the existing fingerprint ids; in particular it is 2 for
ids `{1, 3, 4}` and 4 for ids `{1, 2, 3}`. -/
theorem getNextId_least (l : List Fingerprint) :
    (1 ≤ getNextId l ∧ getNextId l ∉ l.map Fingerprint.id
      ∧ ∀ m : Int, 1 ≤ m → m ∉ l.map Fingerprint.id → getNextId l ≤ m)
    ∧ getNextId [⟨1, "A"⟩, ⟨3, "B"⟩, ⟨4, "C"⟩] = 2
    ∧ getNextId [⟨1, "A"⟩, ⟨2, "B"⟩, ⟨3, "C"⟩] = 4 := by
  have hgen : ∀ l' : List Fingerprint,
      1 ≤ getNextId l' ∧ getNextId l' ∉ l'.map Fingerprint.id
        ∧ ∀ m : Int, 1 ≤ m → m ∉ l'.map Fingerprint.id → getNextId l' ≤ m := by
    intro l'
    rw [getNextId]
    by_cases hnil : l'.length = 0
    · rw [if_pos hnil]
      rw [List.length_eq_zero.mp hnil]
      exact ⟨le_rfl, by simp, fun m hm _ => hm⟩
    · rw [if_neg hnil]
      exact nextFrom_spec (l'.map Fingerprint.id) 1
  refine ⟨hgen l, ?_, ?_⟩
  · obtain ⟨h1, h2, h3⟩ := hgen [⟨1, "A"⟩, ⟨3, "B"⟩, ⟨4, "C"⟩]
    have hle : getNextId [⟨1, "A"⟩, ⟨3, "B"⟩, ⟨4, "C"⟩] ≤ 2 := by
      refine h3 2 (by omega) ?_
      simp
    simp only [List.map_cons, List.map_nil, List.mem_cons, List.mem_singleton] at h2
    push_neg at h2
    omega
  · obtain ⟨h1, h2, h3⟩ := hgen [⟨1, "A"⟩, ⟨2, "B"⟩, ⟨3, "C"⟩]
    have hle : getNextId [⟨1, "A"⟩, ⟨2, "B"⟩, ⟨3, "C"⟩] ≤ 4 := by
      refine h3 4 (by omega) ?_
      simp
    simp only [List.map_cons, List.map_nil, List.mem_cons, List.mem_singleton] at h2
    push_neg at h2
    omega

/-- C7 witness: on the empty fingerprint list the characterization pins the
chosen id below any unused candidate, here 1 itself. -/
theorem getNextId_least_witness :
    getNextId ([] : List Fingerprint) ≤ 1 :=
  (getNextId_least []).1.2.2 1 (by omega) (by simp)

/-- A registered sensor (`types.ts`): locally generated string id, name,
network address and optional bearer credential (empty string when unset). -/
structure SensorConfig where
  id : String
  name : String
  ipAddress : String
  apiKey : String
deriving DecidableEq

/-- The platform key-value store as seen through the single `sensors` key
used by `storage.ts`: either absent or the stored sensor list.  The JSON
blob itself is opaque per the design, so the store holds the decoded list
directly. -/
structure Store where
  sensors : Option (List SensorConfig)
deriving DecidableEq

/-- `loadSensors` (`storage.ts`, lines 6-10): a missing (falsy) blob reads
as the empty list. -/
def loadSensors (st : Store) : List SensorConfig :=
  st.sensors.getD []

/-- `saveSensors` (`storage.ts`, lines 12-14): overwrite the blob. -/
def saveSensors (st : Store) (sensors : List SensorConfig) : Store :=
  { sensors := some sensors }

/-- `addSensor` (`storage.ts`, lines 16-20): load, push, save. -/
def addSensor (st : Store) (sensor : SensorConfig) : Store :=
  saveSensors st (loadSensors st ++ [sensor])

/-- `deleteSensor` (`storage.ts`, lines 31-34): load, keep the records
whose id differs, save. -/
def deleteSensor (st : Store) (i : String) : Store :=
  saveSensors st ((loadSensors st).filter (fun s => s.id != i))

/-- Under pairwise-distinct ids and a present match, the id filter drops
exactly one element. -/
theorem filter_ne_id_length (l : List SensorConfig) (i : String)
    (hu : l.Pairwise (fun a b => a.id ≠ b.id)) (hex : ∃ s ∈ l, s.id = i) :
    (l.filter (fun s => s.id != i)).length + 1 = l.length := by
  induction l with
  | nil => simp at hex
  | cons a tl ih =>
    rw [List.pairwise_cons] at hu
    obtain ⟨ha, htl⟩ := hu
    by_cases hai : a.id = i
    · rw [List.filter_cons, if_neg (by simp [hai])]
      have hkeep : tl.filter (fun s => s.id != i) = tl := by
        rw [List.filter_eq_self]
        intro s hs
        have := ha s hs
        simp only [bne_iff_ne, ne_eq]
        rw [← hai]
        intro he
        exact this he.symm
      rw [hkeep, List.length_cons]
    · obtain ⟨s, hs, hsi⟩ := hex
      rw [List.mem_cons] at hs
      rcases hs with hs | hs
      · subst hs
        exact absurd hsi hai
      · rw [List.filter_cons, if_pos (by simp [hai])]
        rw [List.length_cons, List.length_cons]
        rw [ih htl ⟨s, hs, hsi⟩]

/-- C8: sensor-registry round trip.  Adding a record appends it, with all
fields intact, after the previously stored records; deleting by id — under
the invariant that ids are unique in the stored list, and with a matching
record present — removes exactly one record (the length drops by one),
keeps every record with a different id, and introduces nothing: matching
is by id equality alone. -/
theorem sensors_roundtrip_delete (st : Store) (r : SensorConfig) (i : String)
    (hu : (loadSensors st).Pairwise (fun a b => a.id ≠ b.id))
    (hex : ∃ s ∈ loadSensors st, s.id = i) :
    loadSensors (addSensor st r) = loadSensors st ++ [r]
    ∧ (loadSensors (deleteSensor st i)).length + 1 = (loadSensors st).length
    ∧ (∀ s ∈ loadSensors st, s.id ≠ i → s ∈ loadSensors (deleteSensor st i))
    ∧ (∀ s ∈ loadSensors (deleteSensor st i),
        s ∈ loadSensors st ∧ s.id ≠ i) := by
  refine ⟨rfl, ?_, ?_, ?_⟩
  · exact filter_ne_id_length (loadSensors st) i hu hex
  · intro s hs hne
    show s ∈ (loadSensors st).filter (fun s => s.id != i)
    rw [List.mem_filter]
    exact ⟨hs, by simpa using hne⟩
  · intro s hs
    have hs' : s ∈ (loadSensors st).filter (fun s => s.id != i) := hs
    rw [List.mem_filter] at hs'
    exact ⟨hs'.1, by simpa using hs'.2⟩

/-- C8 witness: on a two-sensor store with distinct ids, deleting the first
keeps a record with the other id reachable. -/
theorem sensors_roundtrip_delete_witness :
    loadSensors (addSensor (Store.mk (some
        [⟨"a", "Door", "10.0.0.7", ""⟩, ⟨"b", "Gate", "10.0.0.8", "k"⟩]))
        ⟨"c", "Shed", "10.0.0.9", ""⟩)
      = [⟨"a", "Door", "10.0.0.7", ""⟩, ⟨"b", "Gate", "10.0.0.8", "k"⟩,
          ⟨"c", "Shed", "10.0.0.9", ""⟩] :=
  (sensors_roundtrip_delete
    (Store.mk (some [⟨"a", "Door", "10.0.0.7", ""⟩, ⟨"b", "Gate", "10.0.0.8", "k"⟩]))
    ⟨"c", "Shed", "10.0.0.9", ""⟩ "a"
    (by decide) ⟨⟨"a", "Door", "10.0.0.7", ""⟩, by decide, rfl⟩).1

/-- `String.prototype.trim`: strip whitespace from both ends, modelled on
the code-unit list. -/
def jsTrim (s : List Char) : List Char :=
  ((s.dropWhile Char.isWhitespace).reverse.dropWhile Char.isWhitespace).reverse

/-- One character of the regex class `[0-9a-fA-F]`. -/
def isHexChar (c : Char) : Bool :=
  ('0' ≤ c && c ≤ '9') || ('a' ≤ c && c ≤ 'f') || ('A' ≤ c && c ≤ 'F')

/-- The whole-string test of the pairing-password regex
(`SensorFormScreen.tsx`, line 850): between 1 and 8 characters, all
hexadecimal. -/
def hexPassword (s : List Char) : Bool :=
  1 ≤ s.length && s.length ≤ 8 && s.all isHexChar

/-- The action `handlePair` takes on a submitted password: one of the two
client-side rejections (each shows an alert and sends nothing), or the
`pairSensor` network call with the trimmed password. -/
inductive PairAction where
  | rejectedEmpty
  | rejectedFormat
  | callPair (password : List Char)
deriving DecidableEq

/-- `handlePair` (`SensorFormScreen.tsx`, lines 843-866): reject when the
trimmed password is empty (falsy), then when the trimmed password fails the
1-8-hex-digit regex; otherwise call `pairSensor` with the trimmed
password. -/
def handlePair (pairPassword : List Char) : PairAction :=
  if (jsTrim pairPassword).isEmpty then PairAction.rejectedEmpty
  else if !hexPassword (jsTrim pairPassword) then PairAction.rejectedFormat
  else PairAction.callPair (jsTrim pairPassword)

/-- C9 counterexample: the password `" 1"` (leading space) does not consist
of 1-8 hexadecimal characters, yet `handlePair` accepts it — the network
call is attempted (with the trimmed password), because validation applies
to the trimmed input.  This refutes the claim's "accepts if and only if the
password consists of 1 to 8 hexadecimal characters" as stated. -/
theorem handlePair_trim_counterexample :
    handlePair [' ', '1'] = PairAction.callPair ['1']
    ∧ hexPassword [' ', '1'] = false := by
  constructor
  · rfl
  · rfl

/-- C9 (amended): `handlePair` attempts the network call exactly when the
trimmed password consists of 1 to 8 hexadecimal characters, and then sends
the trimmed password; otherwise it rejects client-side, before any network
call.  In particular `"1"` and `"abcdef12"` are accepted and `""`,
`"123456789"` (9 characters) and `"ghij"` (non-hex) are rejected without a
request being sent. -/
theorem handlePair_validation (p : List Char) :
    ((∃ q, handlePair p = PairAction.callPair q)
        ↔ hexPassword (jsTrim p) = true)
    ∧ (handlePair p = PairAction.callPair (jsTrim p)
        ∨ handlePair p = PairAction.rejectedEmpty
        ∨ handlePair p = PairAction.rejectedFormat)
    ∧ handlePair ['1'] = PairAction.callPair ['1']
    ∧ handlePair ['a', 'b', 'c', 'd', 'e', 'f', '1', '2']
        = PairAction.callPair ['a', 'b', 'c', 'd', 'e', 'f', '1', '2']
    ∧ handlePair [] = PairAction.rejectedEmpty
    ∧ handlePair ['1', '2', '3', '4', '5', '6', '7', '8', '9']
        = PairAction.rejectedFormat
    ∧ handlePair ['g', 'h', 'i', 'j'] = PairAction.rejectedFormat := by
  refine ⟨?_, ?_, rfl, rfl, rfl, rfl, rfl⟩
  · constructor
    · intro ⟨q, hq⟩
      rw [handlePair] at hq
      by_cases hempty : (jsTrim p).isEmpty = true
      · rw [if_pos hempty] at hq
        exact absurd hq (by simp)
      · rw [if_neg hempty] at hq
        by_cases hhex : hexPassword (jsTrim p) = true
        · exact hhex
        · rw [Bool.not_eq_true] at hhex
          rw [if_pos (by rw [hhex]; rfl)] at hq
          exact absurd hq (by simp)
    · intro hhex
      refine ⟨jsTrim p, ?_⟩
      rw [handlePair]
      have hne : (jsTrim p).isEmpty = false := by
        cases hJ : jsTrim p with
        | nil =>
          rw [hJ, hexPassword] at hhex
          simp at hhex
        | cons c tl => rfl
      rw [if_neg (by rw [hne]; exact Bool.false_ne_true)]
      rw [if_neg (by rw [hhex]; simp)]
  · rw [handlePair]
    by_cases hempty : (jsTrim p).isEmpty = true
    · rw [if_pos hempty]
      right
      left
      rfl
    · rw [if_neg hempty]
      by_cases hhex : hexPassword (jsTrim p) = true
      · rw [if_neg (by rw [hhex]; simp)]
        left
        rfl
      · rw [Bool.not_eq_true] at hhex
        rw [if_pos (by rw [hhex]; rfl)]
        right
        right
        rfl

/-- C9 witness: the amended theorem accepts the concrete password
`" a"` because its trimmed form is one hex character. -/
theorem handlePair_validation_witness :
    ∃ q, handlePair [' ', 'a'] = PairAction.callPair q :=
  (handlePair_validation [' ', 'a']).1.mpr (by decide)

/-- The import payload built by `handleCopyTo`
(`SensorFormScreen.tsx`, lines 806-820): keep the source fingerprint's id
when it is unused on the target, otherwise re-run the ascending scan from
1 over the target's used ids; name and template come unchanged from the
exported template. -/
def copyImportData (copyTargetId : Int) (template : FingerprintTemplate)
    (targetFingerprints : List Fingerprint) : FingerprintTemplate :=
  let usedIds := targetFingerprints.map Fingerprint.id
  let newId := if usedIds.contains copyTargetId then nextFrom usedIds 1
    else copyTargetId
  { id := newId, name := template.name, template := template.template }

/-- C10: when copying a fingerprint, the id used for the import equals the
source fingerprint's id when that id is absent from the target's list;
otherwise it is the lowest integer `≥ 1` not present in the target's list;
the imported name and payload are exactly the exported ones. -/
theorem copyImportData_spec (copyTargetId : Int) (template : FingerprintTemplate)
    (fps : List Fingerprint) :
    ((fps.map Fingerprint.id).contains copyTargetId = false →
      (copyImportData copyTargetId template fps).id = copyTargetId)
    ∧ ((fps.map Fingerprint.id).contains copyTargetId = true →
        1 ≤ (copyImportData copyTargetId template fps).id
        ∧ (copyImportData copyTargetId template fps).id ∉ fps.map Fingerprint.id
        ∧ ∀ m : Int, 1 ≤ m → m ∉ fps.map Fingerprint.id →
            (copyImportData copyTargetId template fps).id ≤ m)
    ∧ (copyImportData copyTargetId template fps).name = template.name
    ∧ (copyImportData copyTargetId template fps).template = template.template := by
  refine ⟨?_, ?_, rfl, rfl⟩
  · intro habsent
    rw [copyImportData]
    simp only [habsent]
    rfl
  · intro hpresent
    have hid : (copyImportData copyTargetId template fps).id
        = nextFrom (fps.map Fingerprint.id) 1 := by
      rw [copyImportData]
      simp only [hpresent]
      rfl
    rw [hid]
    exact nextFrom_spec (fps.map Fingerprint.id) 1

/-- C10 witness: with an empty target list the source id 5 is kept, by the
first branch of the specification. -/
theorem copyImportData_spec_witness :
    (copyImportData 5 ⟨5, "A", ['x']⟩ []).id = 5 :=
  (copyImportData_spec 5 ⟨5, "A", ['x']⟩ []).1 (by decide)

end Doorbell
